import Mathlib

/-!
Shallow embedding of `davisschenk/lordcli` (`src/main.rs`), a CLI driving a
Lord Microstrain IMU/GNSS sensor over a serial link.  The session/frame-codec
layer lives in the external `lordserial` crate; `main.rs` contains the
subcommand dispatch, the fixed channel/rate configuration tables, the hand
built compound packet, and the streaming read loop with its per-descriptor
arrival-timing map (`HashMap<u8, Instant>`).

Machine integers are modelled as `Nat` (bytes reduced `% 256` where the wire
encoding matters).  `Instant` is modelled as a `Nat` clock value; Rust
`Instant` subtraction of a monotone clock never goes negative, matching
truncated `Nat` subtraction.  The `HashMap<u8, Instant>` is modelled as an
association list with in-place overwrite on insert, extensionally equal to
the hash map under lookup.
-/

namespace LordCli

/-- A command field as built by `Field::new(field_id, bytes)` in `main.rs`:
a field identifier byte and a raw payload. -/
structure Field where
  fid : Nat
  payload : List Nat
deriving DecidableEq, Repr

/-- A command packet as built by `Packet::new(descriptor, fields)` in
`main.rs`: a descriptor byte and an ordered field list. -/
structure Packet where
  descriptor : Nat
  fields : List Field
deriving DecidableEq, Repr

/-- Header of a decoded telemetry packet; the read loop only inspects
`data.header.descriptor`. -/
structure Header where
  descriptor : Nat
deriving DecidableEq, Repr

/-- A decoded telemetry packet as returned by `lord.get_data()`.  The read
loop uses only the header descriptor (the payload is printed verbatim), so
the payload is kept as raw fields. -/
structure TelemetryPacket where
  header : Header
  payload : List Field
deriving DecidableEq, Repr

/-- Lookup in the arrival-timing map, embedding `HashMap::get` on the
`seconds_since : HashMap<u8, Instant>` of the `read` subcommand. -/
def mapLookup : List (Nat × Nat) → Nat → Option Nat
  | [], _ => none
  | e :: rest, k => if e.1 = k then some e.2 else mapLookup rest k

/-- Insert-or-overwrite in the arrival-timing map, embedding
`HashMap::insert` (replaces the value when the key is present, appends a new
entry otherwise). -/
def mapInsert : List (Nat × Nat) → Nat → Nat → List (Nat × Nat)
  | [], k, v => [(k, v)]
  | e :: rest, k, v => if e.1 = k then (k, v) :: rest else e :: mapInsert rest k v

/-- One observation of the read loop (`main.rs` lines 195-204): compute the
reported elapsed value (`0` when the descriptor is first seen, `now - old`
otherwise) and store `now` for the descriptor.  Returns
`(reported elapsed, updated map)`. -/
def observe (m : List (Nat × Nat)) (d now : Nat) : Nat × List (Nat × Nat) :=
  (match mapLookup m d with
    | some old => now - old
    | none => 0,
   mapInsert m d now)

/-- State transition of one read-loop iteration on an observed packet
event `(descriptor, now)`. -/
def observeStep (m : List (Nat × Nat)) (ev : Nat × Nat) : List (Nat × Nat) :=
  (observe m ev.1 ev.2).2

/-- The arrival-timing map after the read loop has processed a sequence of
packet events, starting from the empty `HashMap::new()`. -/
def runRead (evs : List (Nat × Nat)) : List (Nat × Nat) :=
  evs.foldl observeStep []

/-- The instant of the most recent event for descriptor `d` in an event
sequence (specification-side description of the map content). -/
def lastArrival : List (Nat × Nat) → Nat → Option Nat
  | [], _ => none
  | ev :: rest, d =>
      match lastArrival rest d with
      | some t => some t
      | none => if ev.1 = d then some ev.2 else none

/-- Control outcome of one iteration of a `loop { ... }` body: either
continue with a new state or leave the loop. -/
inductive LoopControl (σ : Type) where
  | next (s : σ)
  | stop
deriving DecidableEq

/-- Body of the `read` subcommand's `loop` (`main.rs` lines 192-236): poll
`lord.get_data()`; on a packet, compute and print the elapsed time and update
the timing map; either way the loop continues — no branch breaks or
returns. -/
def readLoopBody (m : List (Nat × Nat)) (polled : Option TelemetryPacket)
    (now : Nat) : LoopControl (List (Nat × Nat)) :=
  match polled with
  | none => LoopControl.next m
  | some data => LoopControl.next (observe m data.header.descriptor now).2

/-- Body of the `test` subcommand's `loop` (`main.rs` lines 43-49): poll
`lord.get_data()` and print the packet; the loop always continues. -/
def testLoopBody (_polled : Option TelemetryPacket) : LoopControl Unit :=
  LoopControl.next ()

/-- Session-level errors from the spec's taxonomy that a device interaction
can return (`DeviceNack`, `Timeout`, `FrameError`); any of them propagates
through Rust's `?`. -/
inductive DevErr where
  | deviceNack
  | timeout
  | frameError
deriving DecidableEq, Repr

/-- One session operation issued by a subcommand: the typed format calls of
the `lordserial` session, or a raw pre-built packet send. -/
inductive SessionOp where
  | setImuFormat (function : Nat) (entries : List (Nat × Nat))
  | setGnssFormat (function : Nat) (entries : List (Nat × Nat))
  | setEstimationFormat (function : Nat) (entries : List (Nat × Nat))
  | sendPacket (p : Packet)
deriving DecidableEq, Repr

/-- The `configure` subcommand (`main.rs` lines 56-75) as a function of the
device's response behaviour: issue `set_imu_format` then `set_gnss_format`,
each followed by Rust's `?` which returns the first error immediately.
Returns the ordered trace of operations actually issued together with the
final result. -/
def runConfigure (dev : SessionOp → Except DevErr Unit) :
    List SessionOp × Except DevErr Unit :=
  let op1 := SessionOp.setImuFormat 0x01
    [(0x06, 50), (0x04, 50), (0x05, 50), (0x0A, 50), (0x17, 50)]
  match dev op1 with
  | Except.error e => ([op1], Except.error e)
  | Except.ok _ =>
      let op2 := SessionOp.setGnssFormat 0x01
        [(0x09, 5), (0x0B, 5), (0x03, 5), (0x07, 5), (0x04, 5)]
      match dev op2 with
      | Except.error e => ([op1, op2], Except.error e)
      | Except.ok _ => ([op1, op2], Except.ok ())

/-- The `ekf` subcommand (`main.rs` lines 173-189): apply the estimation
filter format, then reconfigure the GNSS format, then send the stream-enable
packet; each step is followed by `?`. -/
def runEkf (dev : SessionOp → Except DevErr Unit) :
    List SessionOp × Except DevErr Unit :=
  let op1 := SessionOp.setEstimationFormat 0x01 [(0x01, 50), (0x11, 50)]
  match dev op1 with
  | Except.error e => ([op1], Except.error e)
  | Except.ok _ =>
      let op2 := SessionOp.setGnssFormat 0x01 [(0x03, 4), (0x09, 4)]
      match dev op2 with
      | Except.error e => ([op1, op2], Except.error e)
      | Except.ok _ =>
          let op3 := SessionOp.sendPacket
            (Packet.mk 0x0D
              [Field.mk 0x19 [0x01, 0x01], Field.mk 0x19 [0x03, 0x01]])
          match dev op3 with
          | Except.error e => ([op1, op2, op3], Except.error e)
          | Except.ok _ => ([op1, op2, op3], Except.ok ())

/-- Observable events of `main`'s startup phase: reporting the failed port
open on stderr, exiting the process with a status code, creating the session
(`Lord::new`), starting it (`lord.start()`), sending a command, reading a
packet. -/
inductive MainEvent where
  | reportOpenFailure
  | exited (code : Nat)
  | sessionCreated
  | sessionStarted
  | commandSent (op : SessionOp)
  | packetRead (p : TelemetryPacket)
deriving DecidableEq

/-- Startup of `main` (`main.rs` lines 33-41): `serialport::new(port, 115200)
.open()` with `unwrap_or_else` printing the error and calling
`process::exit(0)` on failure.  On success the session is created and
started and the selected subcommand's events (`rest`) follow; on failure the
process exits before any of them. -/
def runMain (openSucceeds : Bool) (rest : List MainEvent) : List MainEvent :=
  if openSucceeds then
    MainEvent.sessionCreated :: MainEvent.sessionStarted :: rest
  else
    [MainEvent.reportOpenFailure, MainEvent.exited 0]

/-- Configuration error from the spec's taxonomy for the command builder. -/
inductive ConfigError where
  | invalidConfiguration
deriving DecidableEq, Repr

/-- Modelled from the spec: wire encoding of one channel-rate entry as used
by the format commands of the external `lordserial` crate (absent from
`src/`): channel id byte, then the decimation as a big-endian 16-bit value
(high byte, low byte). -/
def encodeEntry (e : Nat × Nat) : List Nat :=
  [e.1 % 256, e.2 / 256 % 256, e.2 % 256]

/-- Modelled from the spec: concatenation of the entry encodings in declared
order. -/
def encodeEntries : List (Nat × Nat) → List Nat
  | [] => []
  | e :: rest => encodeEntry e ++ encodeEntries rest

/-- Modelled from the spec: the field payload of a format command — the
function byte, a count byte equal to the number of entries, then the encoded
entries in declared order. -/
def formatFieldPayload (function : Nat) (entries : List (Nat × Nat)) : List Nat :=
  function % 256 :: entries.length % 256 :: encodeEntries entries

/-- Modelled from the spec: the recognized function codes of a format
command — `0x01` (apply) and `0x03` (save to non-volatile storage), the two
codes visible in `main.rs`'s hand-built packet. -/
def recognizedFunctions : List Nat := [0x01, 0x03]

/-- Modelled from the spec: `build_format_command` of the Command Builder
(implemented inside the external `lordserial` crate, absent from `src/`).
Rejects an unrecognized function code, an empty entry table with the apply
function, and any zero decimation with `InvalidConfiguration`; otherwise
produces the field payload. -/
def build_format_command (function : Nat) (entries : List (Nat × Nat)) :
    Except ConfigError (List Nat) :=
  if function ∈ recognizedFunctions then
    if function = 0x01 ∧ entries = [] then
      Except.error ConfigError.invalidConfiguration
    else if entries.any (fun e => e.2 == 0) then
      Except.error ConfigError.invalidConfiguration
    else
      Except.ok (formatFieldPayload function entries)
  else
    Except.error ConfigError.invalidConfiguration

/-- Specification-side byte sequence for one entry: channel id, then the two
big-endian bytes of the 16-bit decimation, with no reduction applied. -/
def specEntryBytes (e : Nat × Nat) : List Nat :=
  [e.1, e.2 / 256, e.2 % 256]

/-- Specification-side serialization of an entry table in declared order. -/
def specEntriesBytes : List (Nat × Nat) → List Nat
  | [] => []
  | e :: rest => specEntryBytes e ++ specEntriesBytes rest

theorem mapLookup_mapInsert (m : List (Nat × Nat)) (k v d : Nat) :
    mapLookup (mapInsert m k v) d = if k = d then some v else mapLookup m d := by
  induction m with
  | nil => simp [mapInsert, mapLookup]
  | cons e rest ih =>
      obtain ⟨a, b⟩ := e
      by_cases h1 : a = k
      · subst h1
        by_cases h2 : a = d <;> simp [mapInsert, mapLookup, h2]
      · by_cases h2 : a = d
        · subst h2
          have hk : ¬ k = a := fun h => h1 h.symm
          simp [mapInsert, mapLookup, h1, hk]
        · simp [mapInsert, mapLookup, h1, h2, ih]

theorem mapLookup_foldl_observeStep (evs : List (Nat × Nat))
    (m : List (Nat × Nat)) (d : Nat) :
    mapLookup (evs.foldl observeStep m) d =
      match lastArrival evs d with
      | some t => some t
      | none => mapLookup m d := by
  induction evs generalizing m with
  | nil => simp [lastArrival]
  | cons ev rest ih =>
      simp only [List.foldl_cons, lastArrival]
      rw [ih]
      cases hr : lastArrival rest d with
      | some t => simp
      | none =>
          simp only [observeStep, observe, mapLookup_mapInsert]
          by_cases h : ev.1 = d <;> simp [h]

theorem lastArrival_append_single (evs : List (Nat × Nat)) (ev : Nat × Nat)
    (d : Nat) :
    lastArrival (evs ++ [ev]) d =
      if ev.1 = d then some ev.2 else lastArrival evs d := by
  induction evs with
  | nil => simp [lastArrival]
  | cons e rest ih =>
      have hdef : lastArrival (e :: (rest ++ [ev])) d =
          match lastArrival (rest ++ [ev]) d with
          | some t => some t
          | none => if e.1 = d then some e.2 else none := rfl
      rw [List.cons_append, hdef, ih]
      by_cases h : ev.1 = d
      · simp [h]
      · rw [if_neg h]
        rw [if_neg h]
        rfl

theorem lastArrival_isSome (evs : List (Nat × Nat)) (d : Nat) :
    (lastArrival evs d).isSome = decide (d ∈ evs.map Prod.fst) := by
  induction evs with
  | nil => simp [lastArrival]
  | cons ev rest ih =>
      cases hr : lastArrival rest d with
      | some t =>
          have hmem : d ∈ List.map Prod.fst rest := by
            have hh := ih
            rw [hr] at hh
            simpa using hh.symm
          have h1 : lastArrival (ev :: rest) d = some t := by
            simp [lastArrival, hr]
          simp [h1, List.mem_cons, hmem]
      | none =>
          have hmem : ¬ d ∈ List.map Prod.fst rest := by
            have hh := ih
            rw [hr] at hh
            simpa using hh.symm
          have h1 : lastArrival (ev :: rest) d =
              if ev.1 = d then some ev.2 else none := by
            simp [lastArrival, hr]
          rw [h1, List.map_cons]
          by_cases h : ev.1 = d
          · subst h
            simp [List.mem_cons]
          · have hd : ¬ d = ev.1 := fun hh => h hh.symm
            simp [List.mem_cons, hd, hmem, h]

/-- C1: for every telemetry packet observed in the read loop, a descriptor
absent from the arrival-timing map reports elapsed 0 (first-seen), a present
one reports `now` minus the previously stored instant, and in both cases the
map entry for that descriptor is then set to `now`. -/
theorem observe_first_seen_and_update (m : List (Nat × Nat)) (d now : Nat) :
    (mapLookup m d = none → (observe m d now).1 = 0) ∧
    (∀ old, mapLookup m d = some old → (observe m d now).1 = now - old) ∧
    mapLookup (observe m d now).2 d = some now := by
  refine ⟨fun h => by simp [observe, h], fun old h => by simp [observe, h], ?_⟩
  simp [observe, mapLookup_mapInsert]

/-- Witness for C1: in the map `[(2, 10)]` descriptor 5 is first-seen and
reports 0; in `[(5, 10)]` it is present and reports `100 - 10`; the entry is
then set to 100. -/
theorem observe_first_seen_and_update_witness :
    (observe [(2, 10)] 5 100).1 = 0 ∧
    (observe [(5, 10)] 5 100).1 = 100 - 10 ∧
    mapLookup (observe [(2, 10)] 5 100).2 5 = some 100 :=
  ⟨(observe_first_seen_and_update [(2, 10)] 5 100).1 (by decide),
   (observe_first_seen_and_update [(5, 10)] 5 100).2.1 10 (by decide),
   (observe_first_seen_and_update [(2, 10)] 5 100).2.2⟩

/-- C4: observing a packet for descriptor `a` changes only `a`'s entry —
every other descriptor's stored timestamp is unchanged. -/
theorem observe_preserves_other_descriptors (m : List (Nat × Nat))
    (a b t : Nat) (h : a ≠ b) :
    mapLookup (observe m a t).2 b = mapLookup m b := by
  simp [observe, mapLookup_mapInsert, h]

/-- Witness for C4: after the sequence A = 1, B = 2, a second observation of
A at instant 30 leaves B's stored timestamp untouched. -/
theorem observe_preserves_other_descriptors_witness :
    mapLookup (observe [(1, 10), (2, 20)] 1 30).2 2 =
      mapLookup [(1, 10), (2, 20)] 2 :=
  observe_preserves_other_descriptors [(1, 10), (2, 20)] 1 2 30 (by decide)

/-- C5: invariant of the arrival-timing map through the read loop — the map
is empty when the loop starts; after any event sequence, looking up a
descriptor returns exactly the instant of its most recent event; the key set
is exactly the set of descriptors observed so far; and processing one more
event never removes an existing key. -/
theorem readLoop_timing_invariant :
    runRead [] = [] ∧
    (∀ evs d, mapLookup (runRead evs) d = lastArrival evs d) ∧
    (∀ evs d, (mapLookup (runRead evs) d).isSome =
        decide (d ∈ evs.map Prod.fst)) ∧
    (∀ evs ev d, (mapLookup (runRead (evs ++ [ev])) d).isSome =
        ((mapLookup (runRead evs) d).isSome || decide (ev.1 = d))) := by
  have key : ∀ evs d, mapLookup (runRead evs) d = lastArrival evs d := by
    intro evs d
    rw [runRead, mapLookup_foldl_observeStep]
    cases lastArrival evs d <;> simp [mapLookup]
  refine ⟨rfl, key, ?_, ?_⟩
  · intro evs d
    rw [key]
    exact lastArrival_isSome evs d
  · intro evs ev d
    rw [key, key, lastArrival_append_single]
    by_cases h : ev.1 = d <;> simp [h]

/-- C8: no iteration of the `test` or `read` streaming loop bodies reaches a
break or return — every iteration continues, so the loops can only end with
process termination. -/
theorem streaming_loops_never_stop :
    (∀ m polled now, ∃ m2, readLoopBody m polled now = LoopControl.next m2) ∧
    (∀ polled, testLoopBody polled = LoopControl.next ()) := by
  constructor
  · intro m polled now
    cases polled with
    | none => exact ⟨m, rfl⟩
    | some data => exact ⟨_, rfl⟩
  · intro polled
    rfl

theorem encodeEntries_length (entries : List (Nat × Nat)) :
    (encodeEntries entries).length = 3 * entries.length := by
  induction entries with
  | nil => rfl
  | cons e rest ih =>
      simp [encodeEntries, encodeEntry, ih]
      omega

theorem encodeEntries_eq_spec (entries : List (Nat × Nat))
    (hc : ∀ e ∈ entries, e.1 < 256 ∧ e.2 < 65536) :
    encodeEntries entries = specEntriesBytes entries := by
  induction entries with
  | nil => rfl
  | cons e rest ih =>
      have he := hc e (List.mem_cons_self e rest)
      have hd : e.2 / 256 < 256 := Nat.div_lt_of_lt_mul (by omega)
      simp [encodeEntries, specEntriesBytes, encodeEntry, specEntryBytes,
        Nat.mod_eq_of_lt he.1, Nat.mod_eq_of_lt hd,
        ih (fun x hx => hc x (List.mem_cons_of_mem e hx))]

/-- C2: for every entry table the builder accepts (all decimations positive
and a recognized function code) whose values fit the machine types (byte
channel ids, 16-bit decimations, at most 255 entries), the produced field
payload has length exactly 2 + 3·len(entries), its byte 0 is the function
code, its byte 1 is the entry count, and the rest is each entry serialized
as channel id then big-endian 16-bit decimation, in declared order. -/
theorem build_format_command_shape (function : Nat)
    (entries : List (Nat × Nat)) (p : List Nat)
    (hc : ∀ e ∈ entries, e.1 < 256 ∧ e.2 < 65536)
    (hn : entries.length < 256)
    (hok : build_format_command function entries = Except.ok p) :
    p.length = 2 + 3 * entries.length ∧
    p.head? = some function ∧
    p.tail.head? = some entries.length ∧
    p = function :: entries.length :: specEntriesBytes entries := by
  have hf : function ∈ recognizedFunctions := by
    by_contra h
    simp [build_format_command, h] at hok
  have hf256 : function < 256 := by
    simp [recognizedFunctions] at hf
    rcases hf with h | h <;> omega
  have hp : p = formatFieldPayload function entries := by
    unfold build_format_command at hok
    rw [if_pos hf] at hok
    split at hok
    · exact absurd hok (by simp)
    · split at hok
      · exact absurd hok (by simp)
      · simp at hok
        exact hok.symm
  have hfun : function % 256 = function := Nat.mod_eq_of_lt hf256
  have hlen : entries.length % 256 = entries.length := Nat.mod_eq_of_lt hn
  subst hp
  refine ⟨?_, ?_, ?_, ?_⟩
  · simp [formatFieldPayload, encodeEntries_length]
    omega
  · simp [formatFieldPayload, hfun]
  · simp [formatFieldPayload, hlen]
  · simp [formatFieldPayload, hfun, hlen, encodeEntries_eq_spec entries hc]

/-- Witness for C2: the spec's end-to-end scenario — apply (0x01) with
entries (0x06, 50) and (0x04, 50) yields payload
[0x01, 0x02, 0x06, 0x00, 0x32, 0x04, 0x00, 0x32]. -/
theorem build_format_command_shape_witness :
    ([0x01, 0x02, 0x06, 0x00, 0x32, 0x04, 0x00, 0x32] : List Nat).length =
        2 + 3 * 2 ∧
    ([0x01, 0x02, 0x06, 0x00, 0x32, 0x04, 0x00, 0x32] : List Nat).head? =
        some 0x01 ∧
    ([0x01, 0x02, 0x06, 0x00, 0x32, 0x04, 0x00, 0x32] : List Nat).tail.head? =
        some 2 ∧
    ([0x01, 0x02, 0x06, 0x00, 0x32, 0x04, 0x00, 0x32] : List Nat) =
        0x01 :: 2 :: specEntriesBytes [(0x06, 50), (0x04, 50)] :=
  build_format_command_shape 0x01 [(0x06, 50), (0x04, 50)]
    [0x01, 0x02, 0x06, 0x00, 0x32, 0x04, 0x00, 0x32]
    (by decide) (by decide) rfl

/-- C3: with an acknowledging device, the `configure` subcommand applies
exactly the fixed table — IMU channels 0x06, 0x04, 0x05, 0x0A, 0x17 at
decimation 50, then GNSS channels 0x09, 0x0B, 0x03, 0x07, 0x04 at
decimation 5, both with apply function code 0x01, in that order. -/
theorem configure_applies_fixed_table (dev : SessionOp → Except DevErr Unit)
    (hdev : ∀ op, dev op = Except.ok ()) :
    runConfigure dev =
      ([SessionOp.setImuFormat 0x01
          [(0x06, 50), (0x04, 50), (0x05, 50), (0x0A, 50), (0x17, 50)],
        SessionOp.setGnssFormat 0x01
          [(0x09, 5), (0x0B, 5), (0x03, 5), (0x07, 5), (0x04, 5)]],
       Except.ok ()) := by
  simp [runConfigure, hdev]

/-- Witness for C3: the always-acknowledging device. -/
theorem configure_applies_fixed_table_witness :
    runConfigure (fun _ => Except.ok ()) =
      ([SessionOp.setImuFormat 0x01
          [(0x06, 50), (0x04, 50), (0x05, 50), (0x0A, 50), (0x17, 50)],
        SessionOp.setGnssFormat 0x01
          [(0x09, 5), (0x0B, 5), (0x03, 5), (0x07, 5), (0x04, 5)]],
       Except.ok ()) :=
  configure_applies_fixed_table (fun _ => Except.ok ()) (fun _ => rfl)

/-- C6: if applying the IMU format in `configure` fails, the error
propagates immediately to the top level — the result is that error, the
issued trace contains only the IMU operation, and no GNSS format command of
any shape is ever issued. -/
theorem configure_imu_error_stops (dev : SessionOp → Except DevErr Unit)
    (e : DevErr)
    (herr : dev (SessionOp.setImuFormat 0x01
        [(0x06, 50), (0x04, 50), (0x05, 50), (0x0A, 50), (0x17, 50)]) =
      Except.error e) :
    runConfigure dev =
      ([SessionOp.setImuFormat 0x01
          [(0x06, 50), (0x04, 50), (0x05, 50), (0x0A, 50), (0x17, 50)]],
       Except.error e) ∧
    (∀ f entries, ((runConfigure dev).1.contains
        (SessionOp.setGnssFormat f entries)) = false) := by
  have h1 : runConfigure dev =
      ([SessionOp.setImuFormat 0x01
          [(0x06, 50), (0x04, 50), (0x05, 50), (0x0A, 50), (0x17, 50)]],
       Except.error e) := by
    simp [runConfigure, herr]
  refine ⟨h1, fun f entries => ?_⟩
  rw [h1]
  simp [List.contains_cons]

/-- Witness for C6: a device that times out on everything — the trace stops
after the IMU operation and no GNSS command with the fixed table is in
it. -/
theorem configure_imu_error_stops_witness :
    runConfigure (fun _ => Except.error DevErr.timeout) =
      ([SessionOp.setImuFormat 0x01
          [(0x06, 50), (0x04, 50), (0x05, 50), (0x0A, 50), (0x17, 50)]],
       Except.error DevErr.timeout) ∧
    ((runConfigure (fun _ => Except.error DevErr.timeout)).1.contains
        (SessionOp.setGnssFormat 0x01
          [(0x09, 5), (0x0B, 5), (0x03, 5), (0x07, 5), (0x04, 5)])) = false :=
  ⟨(configure_imu_error_stops (fun _ => Except.error DevErr.timeout)
      DevErr.timeout rfl).1,
   (configure_imu_error_stops (fun _ => Except.error DevErr.timeout)
      DevErr.timeout rfl).2 0x01
      [(0x09, 5), (0x0B, 5), (0x03, 5), (0x07, 5), (0x04, 5)]⟩

/-- C7: when the serial port cannot be opened, `main` reports the failure
and exits before any session activity — regardless of what the selected
subcommand (`rest`) would have done, no session is created or started, no
command is sent and no packet is read. -/
theorem open_failure_no_session (rest : List MainEvent) :
    runMain false rest = [MainEvent.reportOpenFailure, MainEvent.exited 0] ∧
    ((runMain false rest).contains MainEvent.sessionCreated) = false ∧
    ((runMain false rest).contains MainEvent.sessionStarted) = false ∧
    (∀ op, ((runMain false rest).contains (MainEvent.commandSent op)) = false) ∧
    (∀ p, ((runMain false rest).contains (MainEvent.packetRead p)) = false) := by
  refine ⟨rfl, ?_, ?_, fun op => ?_, fun p => ?_⟩ <;>
    simp [runMain, List.contains_cons]

/-- C9: on serial open failure the process exits with status code 0 (the
success status) even though it reported the failure on stderr: the trace
ends with exit code 0 and contains the stderr report. -/
theorem open_failure_exit_code_zero (rest : List MainEvent) :
    (runMain false rest).getLast? = some (MainEvent.exited 0) ∧
    MainEvent.reportOpenFailure ∈ runMain false rest := by
  constructor <;> simp [runMain]

/-- C10: with an acknowledging device, the `ekf` subcommand issues exactly
three operations — the estimation-filter format, then a GNSS format
reconfiguration with channels 0x03 and 0x09 at decimation 4, then the
stream-enable packet — so the GNSS reconfiguration sits between applying the
estimation table and enabling its stream. -/
theorem ekf_reconfigures_gnss (dev : SessionOp → Except DevErr Unit)
    (hdev : ∀ op, dev op = Except.ok ()) :
    runEkf dev =
      ([SessionOp.setEstimationFormat 0x01 [(0x01, 50), (0x11, 50)],
        SessionOp.setGnssFormat 0x01 [(0x03, 4), (0x09, 4)],
        SessionOp.sendPacket (Packet.mk 0x0D
          [Field.mk 0x19 [0x01, 0x01], Field.mk 0x19 [0x03, 0x01]])],
       Except.ok ()) ∧
    (runEkf dev).1[1]? =
      some (SessionOp.setGnssFormat 0x01 [(0x03, 4), (0x09, 4)]) := by
  have h : runEkf dev =
      ([SessionOp.setEstimationFormat 0x01 [(0x01, 50), (0x11, 50)],
        SessionOp.setGnssFormat 0x01 [(0x03, 4), (0x09, 4)],
        SessionOp.sendPacket (Packet.mk 0x0D
          [Field.mk 0x19 [0x01, 0x01], Field.mk 0x19 [0x03, 0x01]])],
       Except.ok ()) := by
    simp [runEkf, hdev]
  refine ⟨h, ?_⟩
  rw [h]
  rfl

/-- Witness for C10: the always-acknowledging device. -/
theorem ekf_reconfigures_gnss_witness :
    runEkf (fun _ => Except.ok ()) =
      ([SessionOp.setEstimationFormat 0x01 [(0x01, 50), (0x11, 50)],
        SessionOp.setGnssFormat 0x01 [(0x03, 4), (0x09, 4)],
        SessionOp.sendPacket (Packet.mk 0x0D
          [Field.mk 0x19 [0x01, 0x01], Field.mk 0x19 [0x03, 0x01]])],
       Except.ok ()) ∧
    (runEkf (fun _ => Except.ok ())).1[1]? =
      some (SessionOp.setGnssFormat 0x01 [(0x03, 4), (0x09, 4)]) :=
  ekf_reconfigures_gnss (fun _ => Except.ok ()) (fun _ => rfl)

end LordCli
